import Mathlib

/-!
Formal model of the notification and real-time messaging core of the
Zubix Pod backend.  The relational store is embedded as a record of row
lists; every route handler and helper of the subsystem is translated
into a pure function from the store (plus an environment describing the
outcome of each external I/O call) to a result and an updated store.
-/

namespace ZubixPod

/-- Row status of a room join request (enum `RoomRequestStatus`). -/
inductive ReqStatus
  | PENDING
  | ACCEPTED
  | REJECTED
deriving DecidableEq, Repr

/-- Privacy of a room (`PUBLIC` or `PRIVATE`). -/
inductive Privacy
  | PUBLIC
  | PRIVATE
deriving DecidableEq, Repr

/-- Row of the `notifications` table. -/
structure Notification where
  id : Nat
  userId : Nat
  type : String
  title : String
  message : String
  linkedId : Option Nat
  isRead : Bool
deriving DecidableEq, Repr

/-- Row of the `push_subscriptions` table (endpoint and keys elided to
an endpoint string; they play no role in the control flow). -/
structure PushSubscription where
  id : Nat
  userId : Nat
  endpoint : String
deriving DecidableEq, Repr

/-- Row of the `pods` table (only the owner matters here). -/
structure Pod where
  id : Nat
  ownerId : Nat
deriving DecidableEq, Repr

/-- Row of the `pod_members` join table, unique on (podId, userId). -/
structure PodMember where
  podId : Nat
  userId : Nat
deriving DecidableEq, Repr

/-- Row of the `rooms` table. -/
structure Room where
  id : Nat
  podId : Nat
  privacy : Privacy
deriving DecidableEq, Repr

/-- Row of the `room_members` join table, unique on (roomId, userId). -/
structure RoomMember where
  roomId : Nat
  userId : Nat
deriving DecidableEq, Repr

/-- Row of the `room_join_requests` table, unique on (roomId, userId);
`status` defaults to PENDING on creation. -/
structure RoomJoinRequest where
  id : Nat
  roomId : Nat
  userId : Nat
  status : ReqStatus
deriving DecidableEq, Repr

/-- Row of the `chats` table. -/
structure Chat where
  id : Nat
deriving DecidableEq, Repr

/-- Row of the `chat_participants` join table. -/
structure ChatParticipant where
  chatId : Nat
  userId : Nat
deriving DecidableEq, Repr

/-- Row of the `messages` table: exactly one of `roomId`/`chatId` is set
by the two creation paths; `createdAt` is the database timestamp. -/
structure Message where
  id : Nat
  roomId : Option Nat
  chatId : Option Nat
  senderId : Nat
  content : String
  createdAt : Nat
deriving DecidableEq, Repr

/-- The relational store, one list per table, plus a fresh-id counter, a
timestamp clock, and the log of socket events emitted to per-user
channels (pairs of user id and notification id). -/
structure DB where
  users : List Nat
  pods : List Pod
  podMembers : List PodMember
  rooms : List Room
  roomMembers : List RoomMember
  roomJoinRequests : List RoomJoinRequest
  chats : List Chat
  chatParticipants : List ChatParticipant
  messages : List Message
  notifications : List Notification
  pushSubscriptions : List PushSubscription
  socketEmits : List (Nat × Nat)
  nextId : Nat
  clock : Nat
deriving DecidableEq, Repr

/-- HTTP-level error: status code and message, as produced by the route
handlers. -/
structure ApiError where
  status : Nat
  msg : String
deriving DecidableEq, Repr

/-! ### Notification fan-out helper (`createAndEmitNotification`,
`sendPushNotification`) -/

/-- Input of `createAndEmitNotification`. -/
structure CreateNotificationParams where
  userId : Nat
  type : String
  title : String
  message : String
  linkedId : Option Nat
deriving DecidableEq, Repr

/-- Environment describing the outcome of each external call made
during one fan-out: whether `prisma.notification.create` rejects,
whether the socket server instance is available, whether the
subscription `findMany` rejects, per-subscription push outcome
(`some code` means `webpush.sendNotification` rejected with that
status code), and whether the per-subscription cleanup delete
rejects. -/
structure FanoutEnv where
  createFails : Bool
  ioAvailable : Bool
  findSubsFails : Bool
  pushFail : Nat → Option Nat
  deleteFails : Nat → Bool

/-- Decides whether the push attempt for `sub` ends with the
subscription row being deleted: the provider rejected with status 410
or 404 and the cleanup delete itself succeeded. -/
def subDeleted (env : FanoutEnv) (sub : PushSubscription) : Bool :=
  match env.pushFail sub.id with
  | none => false
  | some code => (code == 410 || code == 404) && !(env.deleteFails sub.id)

/-- Store effect of one per-subscription send attempt: on a permanent
provider failure the subscription row is deleted, otherwise the store
is untouched (success and transient failures alike). -/
def pushCleanup (env : FanoutEnv) (db : DB) (sub : PushSubscription) : DB :=
  if subDeleted env sub then
    { db with pushSubscriptions := db.pushSubscriptions.filter (fun s => s.id != sub.id) }
  else db

/-- Model of `sendPushNotification userId payload`: loads the target
user's subscriptions, attempts each independently (failures isolated by
the per-subscription catch and `Promise.allSettled`), and deletes rows
the provider reports gone.  Its own try/catch swallows every error, so
it never fails: it returns the updated store and the list of
subscription ids a delivery was attempted for. -/
def sendPushNotification (env : FanoutEnv) (userId : Nat) (db : DB) : DB × List Nat :=
  if env.findSubsFails then (db, [])
  else
    let subs := db.pushSubscriptions.filter (fun s => s.userId == userId)
    if subs.isEmpty then (db, [])
    else (subs.foldl (pushCleanup env) db, subs.map (fun s => s.id))

/-- Model of `createAndEmitNotification params`: creates the
Notification row (`isRead := false`), emits the socket event to the
user's channel when the socket instance is live, then runs the push
fan-out.  Only the row creation can throw; its error is logged and
rethrown to the caller. -/
def createAndEmitNotification (env : FanoutEnv) (params : CreateNotificationParams)
    (db : DB) : Except String Notification × DB :=
  if env.createFails then (.error ("Error creating notification"), db)
  else
    let notif : Notification :=
      { id := db.nextId, userId := params.userId, type := params.type,
        title := params.title, message := params.message,
        linkedId := params.linkedId, isRead := false }
    let db1 := { db with notifications := db.notifications ++ [notif],
                         nextId := db.nextId + 1 }
    let db2 :=
      if env.ioAvailable then
        { db1 with socketEmits := db1.socketEmits ++ [(params.userId, notif.id)] }
      else db1
    (.ok notif, (sendPushNotification env params.userId db2).1)

/-- Model of `GET /subscriptions`: ids of the caller's push
subscription rows. -/
def listSubscriptions (userId : Nat) (db : DB) : List Nat :=
  (db.pushSubscriptions.filter (fun s => s.userId == userId)).map (fun s => s.id)

/-! ### Lookup helpers shared by the route handlers -/

/-- Model of `prisma.room.findUnique` on the primary key. -/
def findRoom (db : DB) (rid : Nat) : Option Room :=
  db.rooms.find? (fun r => r.id == rid)

/-- Model of the `pod` relation included with a room lookup. -/
def findPod (db : DB) (pid : Nat) : Option Pod :=
  db.pods.find? (fun p => p.id == pid)

/-- Model of `prisma.message.findUnique` on the primary key. -/
def findMessage (db : DB) (mid : Nat) : Option Message :=
  db.messages.find? (fun m => m.id == mid)

/-- Model of `prisma.roomJoinRequest.findUnique` on the (roomId, userId)
unique key. -/
def findJoinRequestByPair (db : DB) (rid uid : Nat) : Option RoomJoinRequest :=
  db.roomJoinRequests.find? (fun r => r.roomId == rid && r.userId == uid)

/-- Model of `prisma.roomJoinRequest.findUnique` on the primary key. -/
def findJoinRequestById (db : DB) (reqId : Nat) : Option RoomJoinRequest :=
  db.roomJoinRequests.find? (fun r => r.id == reqId)

/-- Existence of a `pod_members` row, as checked by
`prisma.podMember.findUnique` on the (podId, userId) key. -/
def IsPodMember (db : DB) (pid uid : Nat) : Prop :=
  ∃ m ∈ db.podMembers, m.podId = pid ∧ m.userId = uid

instance (db : DB) (pid uid : Nat) : Decidable (IsPodMember db pid uid) := by
  unfold IsPodMember; infer_instance

/-- Existence of a `room_members` row, as checked by
`prisma.roomMember.findUnique` on the (roomId, userId) key. -/
def IsRoomMember (db : DB) (rid uid : Nat) : Prop :=
  ∃ m ∈ db.roomMembers, m.roomId = rid ∧ m.userId = uid

instance (db : DB) (rid uid : Nat) : Decidable (IsRoomMember db rid uid) := by
  unfold IsRoomMember; infer_instance

/-- Existence of a `chat_participants` row, as checked by
`prisma.chatParticipant.findUnique` on the (chatId, userId) key. -/
def IsChatParticipant (db : DB) (cid uid : Nat) : Prop :=
  ∃ p ∈ db.chatParticipants, p.chatId = cid ∧ p.userId = uid

instance (db : DB) (cid uid : Nat) : Decidable (IsChatParticipant db cid uid) := by
  unfold IsChatParticipant; infer_instance

/-! ### Room join-request workflow (`POST /:roomId/join-request`,
`PUT /:roomId/join-requests/:requestId`) -/

/-- Success payload returned by the join-request endpoint. -/
inductive JoinResult
  | joined
  | pending
  | resubmitted
deriving DecidableEq, Repr

/-- Model of `POST /:roomId/join-request` for caller `uid`: 404 when
the room is missing, 403 when the caller is neither a pod member nor
the pod owner; a PUBLIC room adds the caller to `room_members` at once
(400 if already a member); a PRIVATE room creates a PENDING
`room_join_requests` row, rejects a duplicate while PENDING or after
ACCEPTED, and resets the existing row to PENDING after REJECTED. -/
def requestJoinRoom (db : DB) (rid uid : Nat) : Except ApiError JoinResult × DB :=
  match findRoom db rid with
  | none => (.error ⟨404, "Room not found"⟩, db)
  | some room =>
    match findPod db room.podId with
    | none => (.error ⟨500, "Failed to submit join request"⟩, db)
    | some pod =>
      if ¬ (IsPodMember db room.podId uid ∨ pod.ownerId = uid) then
        (.error ⟨403, "You must be a member of the pod to request joining a room"⟩, db)
      else if room.privacy = Privacy.PUBLIC then
        if IsRoomMember db rid uid then
          (.error ⟨400, "You are already a member of this room"⟩, db)
        else
          (.ok .joined, { db with roomMembers := db.roomMembers ++ [⟨rid, uid⟩] })
      else
        match findJoinRequestByPair db rid uid with
        | some req =>
          match req.status with
          | .PENDING =>
            (.error ⟨400, "You already have a pending request for this room"⟩, db)
          | .ACCEPTED =>
            (.error ⟨400, "Your request has already been accepted"⟩, db)
          | .REJECTED =>
            let updated := db.roomJoinRequests.map
              (fun r => if r.id = req.id then { r with status := .PENDING } else r)
            (.ok .resubmitted, { db with roomJoinRequests := updated })
        | none =>
          let created := db.roomJoinRequests ++ [⟨db.nextId, rid, uid, .PENDING⟩]
          (.ok .pending,
           { db with roomJoinRequests := created, nextId := db.nextId + 1 })

/-- Model of `PUT /:roomId/join-requests/:requestId` by caller
`callerId` with body `status`: validates the body, requires the room,
requires the caller to be the pod owner, requires the request to exist,
belong to the room, and still be PENDING; then writes the new status
and, on ACCEPTED, inserts the `room_members` row unless it already
exists. -/
def processJoinRequest (db : DB) (rid reqId callerId : Nat) (status : ReqStatus) :
    Except ApiError ReqStatus × DB :=
  if ¬ (status = ReqStatus.ACCEPTED ∨ status = ReqStatus.REJECTED) then
    (.error ⟨400, "Status must be ACCEPTED or REJECTED"⟩, db)
  else
    match findRoom db rid with
    | none => (.error ⟨404, "Room not found"⟩, db)
    | some room =>
      match findPod db room.podId with
      | none => (.error ⟨500, "Failed to process join request"⟩, db)
      | some pod =>
        if pod.ownerId ≠ callerId then
          (.error ⟨403, "Only the pod owner can manage join requests"⟩, db)
        else
          match findJoinRequestById db reqId with
          | none => (.error ⟨404, "Join request not found"⟩, db)
          | some jr =>
            if jr.roomId ≠ rid then
              (.error ⟨400, "Join request does not belong to this room"⟩, db)
            else if jr.status ≠ ReqStatus.PENDING then
              (.error ⟨400, "This request has already been processed"⟩, db)
            else
              let updated := db.roomJoinRequests.map
                (fun r => if r.id = reqId then { r with status := status } else r)
              let db1 := { db with roomJoinRequests := updated }
              let db2 :=
                if status = ReqStatus.ACCEPTED then
                  if IsRoomMember db1 rid jr.userId then db1
                  else { db1 with roomMembers := db1.roomMembers ++ [⟨rid, jr.userId⟩] }
                else db1
              (.ok status, db2)

/-! ### Message listing (`GET /:roomId/messages`, `GET /:chatId/messages`) -/

/-- Descending creation-time order used by the message query
(`orderBy createdAt desc`). -/
def newerEq (a b : Message) : Prop := b.createdAt ≤ a.createdAt

instance : DecidableRel newerEq := fun a b => Nat.decLe b.createdAt a.createdAt

instance : IsTotal Message newerEq :=
  ⟨fun a b => Nat.le_total b.createdAt a.createdAt⟩

instance : IsTrans Message newerEq :=
  ⟨fun _ _ _ h1 h2 => Nat.le_trans h2 h1⟩

/-- Restriction of the where-clause by the `before` cursor: when the
cursor resolves to a message, only strictly older messages stay
eligible; an unresolved cursor leaves the clause untouched. -/
def cursorFilter (db : DB) (before : Option Nat) (l : List Message) : List Message :=
  match before with
  | none => l
  | some bid =>
    match findMessage db bid with
    | none => l
    | some bm => l.filter (fun m => m.createdAt < bm.createdAt)

/-- Core of both message-listing handlers: filter the container's
messages, apply the cursor, order newest first, take `limit`, and
return the page reversed (oldest first). -/
def queryMessages (db : DB) (inContainer : Message → Bool) (limit : Nat)
    (before : Option Nat) : List Message :=
  let elig := cursorFilter db before (db.messages.filter inContainer)
  ((List.insertionSort newerEq elig).take limit).reverse

/-- Model of `GET /:roomId/messages`: 404 when the room is missing, 403
unless the caller is a pod member or the pod owner, a further 403 for a
PRIVATE room when a non-owner caller has no `room_members` row, then
the paginated query (`limit` defaults to 50). -/
def getRoomMessages (db : DB) (rid uid : Nat) (limitParam : Option Nat)
    (before : Option Nat) : Except ApiError (List Message) :=
  match findRoom db rid with
  | none => .error ⟨404, "Room not found"⟩
  | some room =>
    match findPod db room.podId with
    | none => .error ⟨500, "Failed to fetch messages"⟩
    | some pod =>
      if ¬ (IsPodMember db room.podId uid ∨ pod.ownerId = uid) then
        .error ⟨403, "You must be a member of this pod to view messages"⟩
      else if room.privacy = Privacy.PRIVATE ∧ pod.ownerId ≠ uid ∧
          ¬ IsRoomMember db rid uid then
        .error ⟨403, "This is a private room. You need to be approved by the pod owner to access messages."⟩
      else
        .ok (queryMessages db (fun m => m.roomId == some rid) (limitParam.getD 50) before)

/-- Model of `GET /:chatId/messages`: 403 unless the caller is a chat
participant, then the same paginated query scoped to the chat. -/
def getChatMessages (db : DB) (cid uid : Nat) (limitParam : Option Nat)
    (before : Option Nat) : Except ApiError (List Message) :=
  if ¬ IsChatParticipant db cid uid then
    .error ⟨403, "You are not a participant of this chat"⟩
  else
    .ok (queryMessages db (fun m => m.chatId == some cid) (limitParam.getD 50) before)

/-- Model of message creation (`prisma.message.create` in the room or
chat send paths): the row gets a fresh id and the current timestamp. -/
def postMessage (db : DB) (rid uid : Nat) (content : String) : Message × DB :=
  let m : Message := ⟨db.nextId, some rid, none, uid, content, db.clock⟩
  (m, { db with messages := db.messages ++ [m], nextId := db.nextId + 1,
                clock := db.clock + 1 })

/-! ### Direct chats (`POST /get-or-create`) -/

/-- Participant user ids of chat `cid`, in row order. -/
def chatParticipantIds (db : DB) (cid : Nat) : List Nat :=
  (db.chatParticipants.filter (fun p => p.chatId == cid)).map (fun p => p.userId)

/-- Sorted two-element key used to compare participant sets, mirroring
the handler sorting both id lists before the index-wise comparison. -/
def pairKey (a b : Nat) : List Nat :=
  List.insertionSort (· ≤ ·) [a, b]

/-- Predicate of the `.find` over the candidate chats: exactly two
participants, and sorted participant ids equal to the sorted requested
pair. -/
def isExactPairChat (db : DB) (a b : Nat) (c : Chat) : Bool :=
  let ids := chatParticipantIds db c.id
  ids.length == 2 && (List.insertionSort (· ≤ ·) ids == pairKey a b)

/-- First stored chat whose participant set is exactly the unordered
pair given. -/
def findPairChat (db : DB) (a b : Nat) : Option Chat :=
  db.chats.find? (isExactPairChat db a b)

/-- Store effect of `prisma.chat.create` with the two nested
participant rows: a fresh chat row plus one `chat_participants` row
for each of the two users. -/
def createChatDB (db : DB) (currentUserId targetUserId : Nat) : DB :=
  { db with chats := db.chats ++ [⟨db.nextId⟩],
            chatParticipants := db.chatParticipants ++
              [⟨db.nextId, currentUserId⟩, ⟨db.nextId, targetUserId⟩],
            nextId := db.nextId + 1 }

/-- Model of `POST /get-or-create` by `currentUserId` with body
`targetUserId`: 400 on a self-chat, 404 when the target user does not
exist, the existing exact-pair chat when one is found, otherwise a new
chat with both participant rows. -/
def getOrCreateChat (db : DB) (currentUserId targetUserId : Nat) :
    Except ApiError Nat × DB :=
  if targetUserId = currentUserId then
    (.error ⟨400, "Cannot create chat with yourself"⟩, db)
  else if ¬ targetUserId ∈ db.users then
    (.error ⟨404, "Target user not found"⟩, db)
  else
    match findPairChat db currentUserId targetUserId with
    | some c => (.ok c.id, db)
    | none => (.ok db.nextId, createChatDB db currentUserId targetUserId)

/-- Number of `room_join_requests` rows stored for one (room, user)
pair; the DB schema makes this at most 1 via a unique index. -/
def reqCount (db : DB) (rid uid : Nat) : Nat :=
  (db.roomJoinRequests.filter (fun r => r.roomId == rid && r.userId == uid)).length

/-! ### Concrete store for the pagination scenario of the spec: a pod
with one public room into which messages M1, M2, M3 are inserted in
order (each insert takes a strictly later database timestamp) -/

/-- Base store of the pagination scenario. -/
def pagDB0 : DB :=
  { users := [1, 2], pods := [⟨10, 1⟩], podMembers := [⟨10, 2⟩],
    rooms := [⟨20, 10, Privacy.PUBLIC⟩], roomMembers := [], roomJoinRequests := [],
    chats := [], chatParticipants := [], messages := [], notifications := [],
    pushSubscriptions := [], socketEmits := [], nextId := 100, clock := 0 }

/-- First inserted message of the scenario. -/
def pagM1 : Message := (postMessage pagDB0 20 2 "M1").1

/-- Store after inserting M1. -/
def pagDB1 : DB := (postMessage pagDB0 20 2 "M1").2

/-- Second inserted message of the scenario. -/
def pagM2 : Message := (postMessage pagDB1 20 2 "M2").1

/-- Store after inserting M1 and M2. -/
def pagDB2 : DB := (postMessage pagDB1 20 2 "M2").2

/-- Third inserted message of the scenario. -/
def pagM3 : Message := (postMessage pagDB2 20 2 "M3").1

/-- Store after inserting M1, M2 and M3. -/
def pagDB3 : DB := (postMessage pagDB2 20 2 "M3").2

/-! ### Helper lemmas about the push fan-out fold -/

theorem pushCleanup_notifications (env : FanoutEnv) (db : DB) (sub : PushSubscription) :
    (pushCleanup env db sub).notifications = db.notifications := by
  unfold pushCleanup; split <;> rfl

theorem foldl_pushCleanup_notifications (env : FanoutEnv) :
    ∀ (l : List PushSubscription) (db : DB),
      (l.foldl (pushCleanup env) db).notifications = db.notifications
  | [], _ => rfl
  | x :: xs, db => by
    simp only [List.foldl_cons]
    rw [foldl_pushCleanup_notifications env xs, pushCleanup_notifications]

theorem sendPushNotification_fst_notifications (env : FanoutEnv) (userId : Nat) (db : DB) :
    ((sendPushNotification env userId db).1).notifications = db.notifications := by
  unfold sendPushNotification
  split
  · rfl
  · dsimp only
    split
    · rfl
    · exact foldl_pushCleanup_notifications env _ db

theorem pushCleanup_subset {env : FanoutEnv} {db : DB} {sub s : PushSubscription}
    (h : s ∈ (pushCleanup env db sub).pushSubscriptions) : s ∈ db.pushSubscriptions := by
  unfold pushCleanup at h
  split at h
  · exact (List.mem_filter.mp h).1
  · exact h

theorem foldl_pushCleanup_subset (env : FanoutEnv) :
    ∀ (l : List PushSubscription) (db : DB) {s : PushSubscription},
      s ∈ (l.foldl (pushCleanup env) db).pushSubscriptions → s ∈ db.pushSubscriptions
  | [], _, _, h => h
  | x :: xs, db, s, h => by
    simp only [List.foldl_cons] at h
    exact pushCleanup_subset (foldl_pushCleanup_subset env xs _ h)

theorem foldl_pushCleanup_deleted (env : FanoutEnv) :
    ∀ (l : List PushSubscription) (db : DB) (sub : PushSubscription), sub ∈ l →
      subDeleted env sub = true →
      ∀ s ∈ (l.foldl (pushCleanup env) db).pushSubscriptions, s.id ≠ sub.id := by
  intro l
  induction l with
  | nil => intro _ _ h; exact absurd h (List.not_mem_nil _)
  | cons x xs ih =>
    intro db sub hmem hdel s hs
    rcases List.mem_cons.mp hmem with hx | hx
    · subst hx
      simp only [List.foldl_cons] at hs
      have hs' := foldl_pushCleanup_subset env xs _ hs
      unfold pushCleanup at hs'
      rw [hdel] at hs'
      simp only [if_true] at hs'
      have := (List.mem_filter.mp hs').2
      simpa [bne] using this
    · exact ih _ sub hx hdel s hs

theorem foldl_pushCleanup_preserved (env : FanoutEnv) :
    ∀ (l : List PushSubscription) (db : DB) (sub : PushSubscription),
      sub ∈ db.pushSubscriptions →
      (∀ x ∈ l, subDeleted env x = true → x.id ≠ sub.id) →
      sub ∈ (l.foldl (pushCleanup env) db).pushSubscriptions := by
  intro l
  induction l with
  | nil => intro _ _ h _; exact h
  | cons x xs ih =>
    intro db sub hmem hkeep
    simp only [List.foldl_cons]
    refine ih _ sub ?_ (fun y hy => hkeep y (List.mem_cons_of_mem _ hy))
    unfold pushCleanup
    split
    · next hdel =>
      refine List.mem_filter.mpr ⟨hmem, ?_⟩
      have hne := hkeep x (List.mem_cons_self _ _) hdel
      simpa [bne] using fun h => hne h.symm
    · exact hmem

/-- C1: every call of the notification fan-out helper either fails with
the Notification table untouched, or appends exactly one new row that
belongs to the requested user with `isRead = false`, leaving every
other Notification row unchanged. -/
theorem fanout_row_exact (env : FanoutEnv) (p : CreateNotificationParams) (db : DB) :
    (∀ e, (createAndEmitNotification env p db).1 = .error e →
        ((createAndEmitNotification env p db).2).notifications = db.notifications)
    ∧ (∀ n, (createAndEmitNotification env p db).1 = .ok n →
        n.userId = p.userId ∧ n.isRead = false ∧
        ((createAndEmitNotification env p db).2).notifications = db.notifications ++ [n]) := by
  unfold createAndEmitNotification
  by_cases hc : env.createFails = true
  · simp [hc]
  · simp only [Bool.not_eq_true] at hc
    simp only [hc, Bool.false_eq_true, if_false]
    constructor
    · intro e he; exact absurd he (by simp)
    · intro n hn
      injection hn with hn
      subst hn
      refine ⟨rfl, rfl, ?_⟩
      rw [sendPushNotification_fst_notifications]
      split <;> rfl

/-- Witness for C1 at a concrete store: a successful call appends the
single fresh unread row for user 2. -/
theorem fanout_row_exact_witness :
    (({ users := [2], pods := [], podMembers := [], rooms := [], roomMembers := [],
        roomJoinRequests := [], chats := [], chatParticipants := [], messages := [],
        notifications := [], pushSubscriptions := [], socketEmits := [],
        nextId := 5, clock := 0 } : DB).notifications = []) ∧
    ∀ n, (createAndEmitNotification
        ⟨false, true, false, fun _ => none, fun _ => false⟩
        ⟨2, "message", "t", "m", none⟩
        { users := [2], pods := [], podMembers := [], rooms := [], roomMembers := [],
          roomJoinRequests := [], chats := [], chatParticipants := [], messages := [],
          notifications := [], pushSubscriptions := [], socketEmits := [],
          nextId := 5, clock := 0 }).1 = .ok n →
      n.userId = 2 ∧ n.isRead = false := by
  refine ⟨rfl, fun n hn => ?_⟩
  have h := (fanout_row_exact
      ⟨false, true, false, fun _ => none, fun _ => false⟩
      ⟨2, "message", "t", "m", none⟩
      { users := [2], pods := [], podMembers := [], rooms := [], roomMembers := [],
        roomJoinRequests := [], chats := [], chatParticipants := [], messages := [],
        notifications := [], pushSubscriptions := [], socketEmits := [],
        nextId := 5, clock := 0 }).2 n hn
  exact ⟨h.1, h.2.1⟩

/-- C2: when the Notification row write rejects, the fan-out helper
propagates the error to its caller with the store untouched; when the
row write succeeds, the helper returns the created notification no
matter how the delivery environment behaves (socket instance missing,
subscription lookup rejecting, any per-subscription push or cleanup
failure), so no delivery failure ever reaches the caller. -/
theorem fanout_error_containment (env : FanoutEnv) (p : CreateNotificationParams) (db : DB) :
    (env.createFails = true →
        createAndEmitNotification env p db =
          (.error ("Error creating notification"), db))
    ∧ (env.createFails = false →
        ∃ n, (createAndEmitNotification env p db).1 = .ok n ∧
          ((createAndEmitNotification env p db).2).notifications = db.notifications ++ [n]) := by
  constructor
  · intro hc; unfold createAndEmitNotification; rw [hc]; rfl
  · intro hc
    unfold createAndEmitNotification
    simp only [hc, Bool.false_eq_true, if_false]
    refine ⟨_, rfl, ?_⟩
    rw [sendPushNotification_fst_notifications]
    split <;> rfl

/-- Witness for C2: with every delivery step failing but the row write
succeeding, the helper still returns a created notification. -/
theorem fanout_error_containment_witness :
    ((⟨false, false, true, fun _ => some 500, fun _ => true⟩ : FanoutEnv).createFails
        = false) ∧
    ∃ n, (createAndEmitNotification
        ⟨false, false, true, fun _ => some 500, fun _ => true⟩
        ⟨2, "message", "t", "m", none⟩
        { users := [2], pods := [], podMembers := [], rooms := [], roomMembers := [],
          roomJoinRequests := [], chats := [], chatParticipants := [], messages := [],
          notifications := [], pushSubscriptions := [⟨7, 2, "e"⟩], socketEmits := [],
          nextId := 5, clock := 0 }).1 = .ok n := by
  refine ⟨rfl, ?_⟩
  obtain ⟨n, hn, -⟩ := (fanout_error_containment
      ⟨false, false, true, fun _ => some 500, fun _ => true⟩
      ⟨2, "message", "t", "m", none⟩
      { users := [2], pods := [], podMembers := [], rooms := [], roomMembers := [],
        roomJoinRequests := [], chats := [], chatParticipants := [], messages := [],
        notifications := [], pushSubscriptions := [⟨7, 2, "e"⟩], socketEmits := [],
        nextId := 5, clock := 0 }).2 rfl
  exact ⟨n, hn⟩

theorem sendPushNotification_eq (env : FanoutEnv) (u : Nat) (db : DB)
    (hf : env.findSubsFails = false)
    (hne : (db.pushSubscriptions.filter (fun s => s.userId == u)).isEmpty = false) :
    sendPushNotification env u db =
      ((db.pushSubscriptions.filter (fun s => s.userId == u)).foldl (pushCleanup env) db,
       (db.pushSubscriptions.filter (fun s => s.userId == u)).map (fun s => s.id)) := by
  unfold sendPushNotification
  rw [hf]
  simp only [Bool.false_eq_true, if_false, hne]

theorem sendPushNotification_snd_subset (env : FanoutEnv) (u : Nat) (db : DB) :
    ∀ i ∈ (sendPushNotification env u db).2, ∃ s ∈ db.pushSubscriptions, s.id = i := by
  intro i hi
  unfold sendPushNotification at hi
  split at hi
  · exact absurd hi (List.not_mem_nil _)
  · dsimp only at hi
    split at hi
    · exact absurd hi (List.not_mem_nil _)
    · obtain ⟨s, hs, hid⟩ := List.mem_map.mp hi
      exact ⟨s, (List.mem_filter.mp hs).1, hid⟩

/-- C8: during push fan-out, a subscription the provider rejects with
status 404 or 410 is deleted, so it neither appears in the user's
subscription list afterwards nor is attempted by any subsequent
fan-out; a rejection with any other status code leaves the row in
place, and in every case a delivery is attempted for each of the
user's stored subscriptions. -/
theorem push_prune_on_gone (env : FanoutEnv) (db : DB) (u : Nat) (sub : PushSubscription)
    (hmem : sub ∈ db.pushSubscriptions) (huser : sub.userId = u)
    (hnodup : (db.pushSubscriptions.map (fun s => s.id)).Nodup)
    (hf : env.findSubsFails = false) :
    (∀ code, env.pushFail sub.id = some code → (code = 404 ∨ code = 410) →
        env.deleteFails sub.id = false →
        sub.id ∉ listSubscriptions u ((sendPushNotification env u db).1) ∧
        ∀ env' : FanoutEnv,
          sub.id ∉ (sendPushNotification env' u ((sendPushNotification env u db).1)).2)
    ∧ (∀ code, env.pushFail sub.id = some code → ¬ (code = 404 ∨ code = 410) →
        sub ∈ ((sendPushNotification env u db).1).pushSubscriptions)
    ∧ (∀ s ∈ db.pushSubscriptions, s.userId = u →
        s.id ∈ (sendPushNotification env u db).2) := by
  have hsub : sub ∈ db.pushSubscriptions.filter (fun s => s.userId == u) :=
    List.mem_filter.mpr ⟨hmem, by simp [huser]⟩
  have hne : (db.pushSubscriptions.filter (fun s => s.userId == u)).isEmpty = false :=
    List.isEmpty_eq_false.mpr (List.ne_nil_of_mem hsub)
  rw [sendPushNotification_eq env u db hf hne]
  refine ⟨?_, ?_, ?_⟩
  · intro code hcode hgone hdelok
    have hdel : subDeleted env sub = true := by
      unfold subDeleted
      rw [hcode]
      rcases hgone with h | h <;> simp [h, hdelok]
    have hkilled := foldl_pushCleanup_deleted env _ db sub hsub hdel
    constructor
    · intro habs
      obtain ⟨s, hs, hid⟩ := List.mem_map.mp habs
      exact hkilled s (List.mem_filter.mp hs).1 hid
    · intro env' habs
      obtain ⟨s, hs, hid⟩ := sendPushNotification_snd_subset env' u _ _ habs
      exact hkilled s hs hid
  · intro code hcode hother
    have hnodel : subDeleted env sub = false := by
      unfold subDeleted
      rw [hcode]
      simp only [Bool.and_eq_false_iff, Bool.or_eq_false_iff]
      left
      constructor <;> simp <;> omega
    refine foldl_pushCleanup_preserved env _ db sub hmem ?_
    intro x hx hxdel hxid
    have hx' : x ∈ db.pushSubscriptions := (List.mem_filter.mp hx).1
    have : x = sub := List.inj_on_of_nodup_map hnodup hx' hmem hxid
    rw [this, hnodel] at hxdel
    exact Bool.false_ne_true hxdel
  · intro s hs hsu
    exact List.mem_map_of_mem _ (List.mem_filter.mpr ⟨hs, by simp [hsu]⟩)

/-- Witness for C8: with two subscriptions for user 2 and the provider
reporting 410 on subscription 7, the pruned store lists only 8, a
second fan-out attempts only 8, and a 500 failure on 8 leaves it
stored; both fan-outs attempt every stored subscription. -/
theorem push_prune_on_gone_witness :
    ((⟨7, 2, "e1"⟩ : PushSubscription) ∈
        [(⟨7, 2, "e1"⟩ : PushSubscription), ⟨8, 2, "e2"⟩]) ∧
    (7 ∉ listSubscriptions 2 ((sendPushNotification
        ⟨false, true, false, fun i => if i == 7 then some 410 else some 500,
         fun _ => false⟩ 2
        { users := [2], pods := [], podMembers := [], rooms := [], roomMembers := [],
          roomJoinRequests := [], chats := [], chatParticipants := [], messages := [],
          notifications := [], pushSubscriptions := [⟨7, 2, "e1"⟩, ⟨8, 2, "e2"⟩],
          socketEmits := [], nextId := 5, clock := 0 }).1)) ∧
    ((⟨8, 2, "e2"⟩ : PushSubscription) ∈ ((sendPushNotification
        ⟨false, true, false, fun i => if i == 7 then some 410 else some 500,
         fun _ => false⟩ 2
        { users := [2], pods := [], podMembers := [], rooms := [], roomMembers := [],
          roomJoinRequests := [], chats := [], chatParticipants := [], messages := [],
          notifications := [], pushSubscriptions := [⟨7, 2, "e1"⟩, ⟨8, 2, "e2"⟩],
          socketEmits := [], nextId := 5, clock := 0 }).1).pushSubscriptions) := by
  refine ⟨by decide, ?_, ?_⟩
  · exact ((push_prune_on_gone
      ⟨false, true, false, fun i => if i == 7 then some 410 else some 500,
       fun _ => false⟩
      { users := [2], pods := [], podMembers := [], rooms := [], roomMembers := [],
        roomJoinRequests := [], chats := [], chatParticipants := [], messages := [],
        notifications := [], pushSubscriptions := [⟨7, 2, "e1"⟩, ⟨8, 2, "e2"⟩],
        socketEmits := [], nextId := 5, clock := 0 }
      2 ⟨7, 2, "e1"⟩ (by decide) rfl (by decide) rfl).1 410 rfl (Or.inr rfl) rfl).1
  · exact (push_prune_on_gone
      ⟨false, true, false, fun i => if i == 7 then some 410 else some 500,
       fun _ => false⟩
      { users := [2], pods := [], podMembers := [], rooms := [], roomMembers := [],
        roomJoinRequests := [], chats := [], chatParticipants := [], messages := [],
        notifications := [], pushSubscriptions := [⟨7, 2, "e1"⟩, ⟨8, 2, "e2"⟩],
        socketEmits := [], nextId := 5, clock := 0 }
      2 ⟨8, 2, "e2"⟩ (by decide) rfl (by decide) rfl).2.1 500 rfl (by decide)

/-! ### Helper lemmas for the join-request workflow -/

theorem length_filter_map_eq {α : Type} (f : α → α) (p : α → Bool) (l : List α)
    (h : ∀ x, p (f x) = p x) : ((l.map f).filter p).length = (l.filter p).length := by
  induction l with
  | nil => rfl
  | cons x xs ih =>
    simp only [List.map_cons, List.filter_cons, h x]
    cases p x <;> simp [ih]

theorem requestJoinRoom_private_reduce (db : DB) (rid uid : Nat) (room : Room) (pod : Pod)
    (hroom : findRoom db rid = some room) (hpriv : room.privacy = Privacy.PRIVATE)
    (hpod : findPod db room.podId = some pod)
    (hauth : IsPodMember db room.podId uid ∨ pod.ownerId = uid) :
    requestJoinRoom db rid uid =
      match findJoinRequestByPair db rid uid with
      | some req =>
        match req.status with
        | .PENDING =>
          (.error ⟨400, "You already have a pending request for this room"⟩, db)
        | .ACCEPTED =>
          (.error ⟨400, "Your request has already been accepted"⟩, db)
        | .REJECTED =>
          (.ok .resubmitted,
           { db with
               roomJoinRequests := db.roomJoinRequests.map (fun r => if r.id = req.id then { r with status := .PENDING } else r) })
      | none =>
        (.ok .pending,
         { db with
             roomJoinRequests := db.roomJoinRequests ++ [⟨db.nextId, rid, uid, .PENDING⟩],
             nextId := db.nextId + 1 }) := by
  unfold requestJoinRoom
  simp only [hroom, hpod]
  rw [if_neg (fun hC => hC hauth), if_neg (by rw [hpriv]; exact fun h => Privacy.noConfusion h)]

/-- C3: the join-request state machine of a PRIVATE room, for a pod
member: with no stored request the call creates exactly one PENDING
row and the pair's row count becomes 1; while PENDING or after
ACCEPTED the call errors with the store untouched; after REJECTED the
same row is reset to PENDING with every pair's row count unchanged;
and the at-most-one-row-per-pair invariant is preserved by every
outcome of the call. -/
theorem private_room_join_state_machine (db : DB) (rid uid : Nat) (room : Room) (pod : Pod)
    (hroom : findRoom db rid = some room) (hpriv : room.privacy = Privacy.PRIVATE)
    (hpod : findPod db room.podId = some pod)
    (hmem : IsPodMember db room.podId uid) :
    (findJoinRequestByPair db rid uid = none →
        (requestJoinRoom db rid uid).1 = .ok .pending ∧
        ((requestJoinRoom db rid uid).2).roomJoinRequests =
          db.roomJoinRequests ++ [⟨db.nextId, rid, uid, .PENDING⟩] ∧
        reqCount ((requestJoinRoom db rid uid).2) rid uid = 1)
    ∧ (∀ req, findJoinRequestByPair db rid uid = some req → req.status = .PENDING →
        requestJoinRoom db rid uid =
          (.error ⟨400, "You already have a pending request for this room"⟩, db))
    ∧ (∀ req, findJoinRequestByPair db rid uid = some req → req.status = .ACCEPTED →
        requestJoinRoom db rid uid =
          (.error ⟨400, "Your request has already been accepted"⟩, db))
    ∧ (∀ req, findJoinRequestByPair db rid uid = some req → req.status = .REJECTED →
        (requestJoinRoom db rid uid).1 = .ok .resubmitted ∧
        { req with status := ReqStatus.PENDING } ∈
          ((requestJoinRoom db rid uid).2).roomJoinRequests ∧
        ∀ r u, reqCount ((requestJoinRoom db rid uid).2) r u = reqCount db r u)
    ∧ ((∀ r u, reqCount db r u ≤ 1) →
        ∀ r u, reqCount ((requestJoinRoom db rid uid).2) r u ≤ 1) := by
  have hred := requestJoinRoom_private_reduce db rid uid room pod hroom hpriv hpod
    (Or.inl hmem)
  have hupd : ∀ (req : RoomJoinRequest) (r_ u_ : Nat) (x : RoomJoinRequest),
      (((if x.id = req.id then { x with status := ReqStatus.PENDING } else x).roomId == r_ && (if x.id = req.id then { x with status := ReqStatus.PENDING } else x).userId == u_) : Bool) = (x.roomId == r_ && x.userId == u_) := by
    intro req r_ u_ x
    by_cases hx : x.id = req.id <;> simp [hx]
  refine ⟨?_, ?_, ?_, ?_, ?_⟩
  · intro hfind
    refine ⟨?_, ?_, ?_⟩
    · simp only [hred, hfind]
    · simp only [hred, hfind]
    · simp only [hred, hfind]
      show ((db.roomJoinRequests ++
            [(⟨db.nextId, rid, uid, ReqStatus.PENDING⟩ : RoomJoinRequest)]).filter
          (fun r => r.roomId == rid && r.userId == uid)).length = 1
      rw [List.filter_append,
        List.filter_eq_nil_iff.mpr (List.find?_eq_none.mp hfind)]
      simp
  · intro req hfind hst
    simp only [hred, hfind, hst]
  · intro req hfind hst
    simp only [hred, hfind, hst]
  · intro req hfind hst
    refine ⟨?_, ?_, ?_⟩
    · simp only [hred, hfind, hst]
    · simp only [hred, hfind, hst]
      have hreq : req ∈ db.roomJoinRequests := List.mem_of_find?_eq_some hfind
      have := List.mem_map_of_mem
        (fun r => if r.id = req.id then { r with status := ReqStatus.PENDING } else r) hreq
      simpa using this
    · intro r_ u_
      simp only [hred, hfind, hst]
      exact length_filter_map_eq _ _ _ (hupd req r_ u_)
  · intro hinv r_ u_
    cases hfind : findJoinRequestByPair db rid uid with
    | some req =>
      cases hst : req.status
      · simp only [hred, hfind, hst]; exact hinv r_ u_
      · simp only [hred, hfind, hst]; exact hinv r_ u_
      · simp only [hred, hfind, hst]
        exact (length_filter_map_eq _ _ _ (hupd req r_ u_)).trans_le (hinv r_ u_)
    | none =>
      simp only [hred, hfind]
      show ((db.roomJoinRequests ++
            [(⟨db.nextId, rid, uid, ReqStatus.PENDING⟩ : RoomJoinRequest)]).filter
          (fun r => r.roomId == r_ && r.userId == u_)).length ≤ 1
      rw [List.filter_append]
      by_cases hp : ((rid == r_ && uid == u_) : Bool) = true
      · have hr : rid = r_ := by
          have := (Bool.and_eq_true _ _).mp hp
          exact beq_iff_eq.mp this.1
        have hu : uid = u_ := by
          have := (Bool.and_eq_true _ _).mp hp
          exact beq_iff_eq.mp this.2
        subst hr; subst hu
        rw [List.filter_eq_nil_iff.mpr (List.find?_eq_none.mp hfind)]
        simp
      · have hone : List.filter (fun r => r.roomId == r_ && r.userId == u_)
            [(⟨db.nextId, rid, uid, ReqStatus.PENDING⟩ : RoomJoinRequest)] = [] := by
          simp only [List.filter, Bool.not_eq_true] at hp ⊢
          rw [hp]
        rw [hone, List.append_nil]
        exact hinv r_ u_

/-- Witness for C3 at a concrete store: user 2, a pod member, files a
request on private room 21 with no prior row; exactly one PENDING row
results. -/
theorem private_room_join_state_machine_witness :
    (findJoinRequestByPair
      { users := [1, 2], pods := [⟨10, 1⟩], podMembers := [⟨10, 2⟩],
        rooms := [⟨21, 10, Privacy.PRIVATE⟩], roomMembers := [], roomJoinRequests := [],
        chats := [], chatParticipants := [], messages := [], notifications := [],
        pushSubscriptions := [], socketEmits := [], nextId := 100, clock := 0 } 21 2
       = none) ∧
    (requestJoinRoom
      { users := [1, 2], pods := [⟨10, 1⟩], podMembers := [⟨10, 2⟩],
        rooms := [⟨21, 10, Privacy.PRIVATE⟩], roomMembers := [], roomJoinRequests := [],
        chats := [], chatParticipants := [], messages := [], notifications := [],
        pushSubscriptions := [], socketEmits := [], nextId := 100, clock := 0 } 21 2).1
       = .ok .pending ∧
    reqCount ((requestJoinRoom
      { users := [1, 2], pods := [⟨10, 1⟩], podMembers := [⟨10, 2⟩],
        rooms := [⟨21, 10, Privacy.PRIVATE⟩], roomMembers := [], roomJoinRequests := [],
        chats := [], chatParticipants := [], messages := [], notifications := [],
        pushSubscriptions := [], socketEmits := [], nextId := 100, clock := 0 } 21 2).2)
      21 2 = 1 := by
  have h := (private_room_join_state_machine
      { users := [1, 2], pods := [⟨10, 1⟩], podMembers := [⟨10, 2⟩],
        rooms := [⟨21, 10, Privacy.PRIVATE⟩], roomMembers := [], roomJoinRequests := [],
        chats := [], chatParticipants := [], messages := [], notifications := [],
        pushSubscriptions := [], socketEmits := [], nextId := 100, clock := 0 }
      21 2 ⟨21, 10, Privacy.PRIVATE⟩ ⟨10, 1⟩ rfl rfl rfl (by decide)).1 rfl
  exact ⟨rfl, h.1, h.2.2⟩

/-- C4: on a PUBLIC room, a pod member's join-request call yields
immediate membership: afterwards the (room, user) `room_members` row
exists and the join-request table is untouched; when the caller was
not yet a member the call reports JOINED and appends exactly that
row. -/
theorem public_room_immediate_join (db : DB) (rid uid : Nat) (room : Room) (pod : Pod)
    (hroom : findRoom db rid = some room) (hpub : room.privacy = Privacy.PUBLIC)
    (hpod : findPod db room.podId = some pod)
    (hmem : IsPodMember db room.podId uid) :
    IsRoomMember ((requestJoinRoom db rid uid).2) rid uid ∧
    ((requestJoinRoom db rid uid).2).roomJoinRequests = db.roomJoinRequests ∧
    (¬ IsRoomMember db rid uid →
      (requestJoinRoom db rid uid).1 = .ok .joined ∧
      ((requestJoinRoom db rid uid).2).roomMembers = db.roomMembers ++ [⟨rid, uid⟩]) := by
  unfold requestJoinRoom
  simp only [hroom, hpod]
  rw [if_neg (fun hC => hC (Or.inl hmem)), if_pos hpub]
  by_cases hm : IsRoomMember db rid uid
  · rw [if_pos hm]
    exact ⟨hm, rfl, fun hnm => absurd hm hnm⟩
  · rw [if_neg hm]
    refine ⟨?_, rfl, fun _ => ⟨rfl, rfl⟩⟩
    exact ⟨⟨rid, uid⟩, List.mem_append_right _ (List.mem_cons_self _ _), rfl, rfl⟩

/-- Witness for C4: a pod member joins public room 20 at once; a
member row appears and no join request is created. -/
theorem public_room_immediate_join_witness :
    IsRoomMember ((requestJoinRoom
      { users := [1, 2], pods := [⟨10, 1⟩], podMembers := [⟨10, 2⟩],
        rooms := [⟨20, 10, Privacy.PUBLIC⟩], roomMembers := [], roomJoinRequests := [],
        chats := [], chatParticipants := [], messages := [], notifications := [],
        pushSubscriptions := [], socketEmits := [], nextId := 100, clock := 0 } 20 2).2)
      20 2 ∧
    ((requestJoinRoom
      { users := [1, 2], pods := [⟨10, 1⟩], podMembers := [⟨10, 2⟩],
        rooms := [⟨20, 10, Privacy.PUBLIC⟩], roomMembers := [], roomJoinRequests := [],
        chats := [], chatParticipants := [], messages := [], notifications := [],
        pushSubscriptions := [], socketEmits := [], nextId := 100, clock := 0 } 20 2).2).roomJoinRequests
      = [] := by
  have h := public_room_immediate_join
    { users := [1, 2], pods := [⟨10, 1⟩], podMembers := [⟨10, 2⟩],
      rooms := [⟨20, 10, Privacy.PUBLIC⟩], roomMembers := [], roomJoinRequests := [],
      chats := [], chatParticipants := [], messages := [], notifications := [],
      pushSubscriptions := [], socketEmits := [], nextId := 100, clock := 0 }
    20 2 ⟨20, 10, Privacy.PUBLIC⟩ ⟨10, 1⟩ rfl rfl rfl (by decide)
  exact ⟨h.1, h.2.1⟩

/-- C5: processing a join request: a caller other than the pod owner
gets a 403 with the store untouched; a request that is no longer
PENDING is refused as already processed; the owner accepting a PENDING
request marks the row ACCEPTED and ensures a `room_members` row for
the requester, appending it exactly when it does not already exist. -/
theorem join_request_decision (db : DB) (rid reqId callerId : Nat) (status : ReqStatus)
    (room : Room) (pod : Pod)
    (hroom : findRoom db rid = some room) (hpod : findPod db room.podId = some pod)
    (hval : status = ReqStatus.ACCEPTED ∨ status = ReqStatus.REJECTED) :
    (pod.ownerId ≠ callerId →
        processJoinRequest db rid reqId callerId status =
          (.error ⟨403, "Only the pod owner can manage join requests"⟩, db))
    ∧ (∀ jr, pod.ownerId = callerId → findJoinRequestById db reqId = some jr →
        jr.roomId = rid → jr.status ≠ ReqStatus.PENDING →
        processJoinRequest db rid reqId callerId status =
          (.error ⟨400, "This request has already been processed"⟩, db))
    ∧ (∀ jr, pod.ownerId = callerId → findJoinRequestById db reqId = some jr →
        jr.roomId = rid → jr.status = ReqStatus.PENDING → status = ReqStatus.ACCEPTED →
        (processJoinRequest db rid reqId callerId status).1 = .ok ReqStatus.ACCEPTED ∧
        { jr with status := ReqStatus.ACCEPTED } ∈
          ((processJoinRequest db rid reqId callerId status).2).roomJoinRequests ∧
        IsRoomMember ((processJoinRequest db rid reqId callerId status).2) rid jr.userId ∧
        (IsRoomMember db rid jr.userId →
          ((processJoinRequest db rid reqId callerId status).2).roomMembers =
            db.roomMembers) ∧
        (¬ IsRoomMember db rid jr.userId →
          ((processJoinRequest db rid reqId callerId status).2).roomMembers =
            db.roomMembers ++ [⟨rid, jr.userId⟩])) := by
  have hv : ¬ ¬ (status = ReqStatus.ACCEPTED ∨ status = ReqStatus.REJECTED) :=
    fun h => h hval
  refine ⟨?_, ?_, ?_⟩
  · intro hne
    unfold processJoinRequest
    rw [if_neg hv]
    simp only [hroom, hpod]
    rw [if_pos hne]
  · intro jr hown hfind hrm hst
    unfold processJoinRequest
    rw [if_neg hv]
    simp only [hroom, hpod]
    rw [if_neg (fun h => h hown)]
    simp only [hfind]
    rw [if_neg (fun h => h hrm), if_pos hst]
  · intro jr hown hfind hrm hst hacc
    subst hacc
    have hfind' : db.roomJoinRequests.find? (fun r => r.id == reqId) = some jr := hfind
    have hb := List.find?_some hfind'
    have hid : jr.id = reqId := beq_iff_eq.mp hb
    have hjr : jr ∈ db.roomJoinRequests := List.mem_of_find?_eq_some hfind'
    unfold processJoinRequest
    rw [if_neg hv]
    simp only [hroom, hpod]
    rw [if_neg (fun h => h hown)]
    simp only [hfind]
    rw [if_neg (fun h => h hrm), if_neg (fun h => h hst), if_pos trivial]
    refine ⟨rfl, ?_, ?_, ?_, ?_⟩
    · split
      all_goals
        have hmm := List.mem_map_of_mem
          (fun r => if r.id = reqId then { r with status := ReqStatus.ACCEPTED } else r) hjr
      all_goals simpa [hid] using hmm
    · split
      · next hcond => exact hcond
      · exact ⟨⟨rid, jr.userId⟩, List.mem_append_right _ (List.mem_cons_self _ _), rfl, rfl⟩
    · intro hmm
      split
      · rfl
      · next hcond => exact absurd hmm hcond
    · intro hnm
      split
      · next hcond => exact absurd hcond hnm
      · rfl

/-- Witness for C5: the pod owner accepts user 2's pending request on
room 21; the row becomes ACCEPTED and a member row for user 2
appears, while a non-owner caller is refused. -/
theorem join_request_decision_witness :
    (processJoinRequest
      { users := [1, 2], pods := [⟨10, 1⟩], podMembers := [⟨10, 2⟩],
        rooms := [⟨21, 10, Privacy.PRIVATE⟩], roomMembers := [],
        roomJoinRequests := [⟨100, 21, 2, ReqStatus.PENDING⟩],
        chats := [], chatParticipants := [], messages := [], notifications := [],
        pushSubscriptions := [], socketEmits := [], nextId := 101, clock := 0 }
      21 100 2 ReqStatus.ACCEPTED =
      (.error ⟨403, "Only the pod owner can manage join requests"⟩,
       { users := [1, 2], pods := [⟨10, 1⟩], podMembers := [⟨10, 2⟩],
         rooms := [⟨21, 10, Privacy.PRIVATE⟩], roomMembers := [],
         roomJoinRequests := [⟨100, 21, 2, ReqStatus.PENDING⟩],
         chats := [], chatParticipants := [], messages := [], notifications := [],
         pushSubscriptions := [], socketEmits := [], nextId := 101, clock := 0 })) ∧
    (processJoinRequest
      { users := [1, 2], pods := [⟨10, 1⟩], podMembers := [⟨10, 2⟩],
        rooms := [⟨21, 10, Privacy.PRIVATE⟩], roomMembers := [],
        roomJoinRequests := [⟨100, 21, 2, ReqStatus.PENDING⟩],
        chats := [], chatParticipants := [], messages := [], notifications := [],
        pushSubscriptions := [], socketEmits := [], nextId := 101, clock := 0 }
      21 100 1 ReqStatus.ACCEPTED).1 = .ok ReqStatus.ACCEPTED ∧
    IsRoomMember ((processJoinRequest
      { users := [1, 2], pods := [⟨10, 1⟩], podMembers := [⟨10, 2⟩],
        rooms := [⟨21, 10, Privacy.PRIVATE⟩], roomMembers := [],
        roomJoinRequests := [⟨100, 21, 2, ReqStatus.PENDING⟩],
        chats := [], chatParticipants := [], messages := [], notifications := [],
        pushSubscriptions := [], socketEmits := [], nextId := 101, clock := 0 }
      21 100 1 ReqStatus.ACCEPTED).2) 21 2 := by
  refine ⟨?_, ?_, ?_⟩
  · exact (join_request_decision
      { users := [1, 2], pods := [⟨10, 1⟩], podMembers := [⟨10, 2⟩],
        rooms := [⟨21, 10, Privacy.PRIVATE⟩], roomMembers := [],
        roomJoinRequests := [⟨100, 21, 2, ReqStatus.PENDING⟩],
        chats := [], chatParticipants := [], messages := [], notifications := [],
        pushSubscriptions := [], socketEmits := [], nextId := 101, clock := 0 }
      21 100 2 ReqStatus.ACCEPTED ⟨21, 10, Privacy.PRIVATE⟩ ⟨10, 1⟩ rfl rfl
      (Or.inl rfl)).1 (by decide)
  · exact ((join_request_decision
      { users := [1, 2], pods := [⟨10, 1⟩], podMembers := [⟨10, 2⟩],
        rooms := [⟨21, 10, Privacy.PRIVATE⟩], roomMembers := [],
        roomJoinRequests := [⟨100, 21, 2, ReqStatus.PENDING⟩],
        chats := [], chatParticipants := [], messages := [], notifications := [],
        pushSubscriptions := [], socketEmits := [], nextId := 101, clock := 0 }
      21 100 1 ReqStatus.ACCEPTED ⟨21, 10, Privacy.PRIVATE⟩ ⟨10, 1⟩ rfl rfl
      (Or.inl rfl)).2.2 ⟨100, 21, 2, ReqStatus.PENDING⟩ rfl rfl rfl rfl rfl).1
  · exact ((join_request_decision
      { users := [1, 2], pods := [⟨10, 1⟩], podMembers := [⟨10, 2⟩],
        rooms := [⟨21, 10, Privacy.PRIVATE⟩], roomMembers := [],
        roomJoinRequests := [⟨100, 21, 2, ReqStatus.PENDING⟩],
        chats := [], chatParticipants := [], messages := [], notifications := [],
        pushSubscriptions := [], socketEmits := [], nextId := 101, clock := 0 }
      21 100 1 ReqStatus.ACCEPTED ⟨21, 10, Privacy.PRIVATE⟩ ⟨10, 1⟩ rfl rfl
      (Or.inl rfl)).2.2 ⟨100, 21, 2, ReqStatus.PENDING⟩ rfl rfl rfl rfl rfl).2.2.1

/-- C9: reading a room's messages is gated: a caller who is neither a
pod member nor the pod owner gets the pod-level 403; on a PRIVATE room
a non-owner caller without a `room_members` row gets a 403 as well; an
authorized caller gets the message page. -/
theorem room_messages_authorization (db : DB) (rid uid : Nat) (lp before : Option Nat)
    (room : Room) (pod : Pod)
    (hroom : findRoom db rid = some room) (hpod : findPod db room.podId = some pod) :
    (¬ (IsPodMember db room.podId uid ∨ pod.ownerId = uid) →
        getRoomMessages db rid uid lp before =
          .error ⟨403, "You must be a member of this pod to view messages"⟩)
    ∧ (room.privacy = Privacy.PRIVATE → pod.ownerId ≠ uid → ¬ IsRoomMember db rid uid →
        ∃ e, getRoomMessages db rid uid lp before = .error e ∧ e.status = 403)
    ∧ ((IsPodMember db room.podId uid ∨ pod.ownerId = uid) →
        (room.privacy = Privacy.PUBLIC ∨ pod.ownerId = uid ∨ IsRoomMember db rid uid) →
        getRoomMessages db rid uid lp before =
          .ok (queryMessages db (fun m => m.roomId == some rid) (lp.getD 50) before)) := by
  unfold getRoomMessages
  simp only [hroom, hpod]
  refine ⟨?_, ?_, ?_⟩
  · intro h
    rw [if_pos h]
  · intro hpriv hown hnm
    by_cases hauth : IsPodMember db room.podId uid ∨ pod.ownerId = uid
    · rw [if_neg (not_not_intro hauth), if_pos ⟨hpriv, hown, hnm⟩]
      exact ⟨_, rfl, rfl⟩
    · rw [if_pos hauth]
      exact ⟨_, rfl, rfl⟩
  · intro hauth hacc
    have hcnot : ¬ (room.privacy = Privacy.PRIVATE ∧ pod.ownerId ≠ uid ∧
        ¬ IsRoomMember db rid uid) := by
      rintro ⟨h1, h2, h3⟩
      rcases hacc with hp | ho | hr
      · rw [hp] at h1; exact Privacy.noConfusion h1
      · exact h2 ho
      · exact h3 hr
    rw [if_neg (not_not_intro hauth), if_neg hcnot]

/-- Witness for C9: a stranger to the pod is refused room 20's
messages, while pod member 2 reads them. -/
theorem room_messages_authorization_witness :
    (getRoomMessages
      { users := [1, 2, 5], pods := [⟨10, 1⟩], podMembers := [⟨10, 2⟩],
        rooms := [⟨20, 10, Privacy.PUBLIC⟩], roomMembers := [], roomJoinRequests := [],
        chats := [], chatParticipants := [], messages := [], notifications := [],
        pushSubscriptions := [], socketEmits := [], nextId := 100, clock := 0 }
      20 5 none none =
      .error ⟨403, "You must be a member of this pod to view messages"⟩) ∧
    (getRoomMessages
      { users := [1, 2, 5], pods := [⟨10, 1⟩], podMembers := [⟨10, 2⟩],
        rooms := [⟨20, 10, Privacy.PUBLIC⟩], roomMembers := [], roomJoinRequests := [],
        chats := [], chatParticipants := [], messages := [], notifications := [],
        pushSubscriptions := [], socketEmits := [], nextId := 100, clock := 0 }
      20 2 none none = .ok []) := by
  constructor
  · exact (room_messages_authorization
      { users := [1, 2, 5], pods := [⟨10, 1⟩], podMembers := [⟨10, 2⟩],
        rooms := [⟨20, 10, Privacy.PUBLIC⟩], roomMembers := [], roomJoinRequests := [],
        chats := [], chatParticipants := [], messages := [], notifications := [],
        pushSubscriptions := [], socketEmits := [], nextId := 100, clock := 0 }
      20 5 none none ⟨20, 10, Privacy.PUBLIC⟩ ⟨10, 1⟩ rfl rfl).1 (by decide)
  · have h := (room_messages_authorization
      { users := [1, 2, 5], pods := [⟨10, 1⟩], podMembers := [⟨10, 2⟩],
        rooms := [⟨20, 10, Privacy.PUBLIC⟩], roomMembers := [], roomJoinRequests := [],
        chats := [], chatParticipants := [], messages := [], notifications := [],
        pushSubscriptions := [], socketEmits := [], nextId := 100, clock := 0 }
      20 2 none none ⟨20, 10, Privacy.PUBLIC⟩ ⟨10, 1⟩ rfl rfl).2.2
      (Or.inl (by decide)) (Or.inl rfl)
    exact h

/-- C10: a `before` cursor that matches no stored message id is
silently ignored in both the room and the chat message listings: the
call behaves exactly as if no cursor had been supplied, and for an
authorized chat participant it still succeeds. -/
theorem unknown_before_cursor_ignored (db : DB) (bid : Nat)
    (hmiss : findMessage db bid = none) :
    (∀ rid uid lp, getRoomMessages db rid uid lp (some bid) =
        getRoomMessages db rid uid lp none)
    ∧ (∀ cid uid lp, getChatMessages db cid uid lp (some bid) =
        getChatMessages db cid uid lp none)
    ∧ (∀ cid uid lp, IsChatParticipant db cid uid →
        ∃ msgs, getChatMessages db cid uid lp (some bid) = .ok msgs) := by
  have hq : ∀ (p : Message → Bool) (lim : Nat),
      queryMessages db p lim (some bid) = queryMessages db p lim none := by
    intro p lim
    unfold queryMessages cursorFilter
    dsimp only
    rw [hmiss]
  refine ⟨?_, ?_, ?_⟩
  · intro rid uid lp
    unfold getRoomMessages
    simp only [hq]
  · intro cid uid lp
    unfold getChatMessages
    simp only [hq]
  · intro cid uid lp hpart
    unfold getChatMessages
    rw [if_neg (not_not_intro hpart)]
    exact ⟨_, rfl⟩

/-- Witness for C10: with no message of id 999 stored, listing chat 30
with cursor 999 equals the cursor-free listing and succeeds for a
participant. -/
theorem unknown_before_cursor_ignored_witness :
    (findMessage
      { users := [1, 2], pods := [], podMembers := [], rooms := [], roomMembers := [],
        roomJoinRequests := [], chats := [⟨30⟩],
        chatParticipants := [⟨30, 1⟩, ⟨30, 2⟩],
        messages := [⟨40, none, some 30, 1, "hi", 0⟩], notifications := [],
        pushSubscriptions := [], socketEmits := [], nextId := 100, clock := 1 } 999
      = none) ∧
    ∃ msgs, getChatMessages
      { users := [1, 2], pods := [], podMembers := [], rooms := [], roomMembers := [],
        roomJoinRequests := [], chats := [⟨30⟩],
        chatParticipants := [⟨30, 1⟩, ⟨30, 2⟩],
        messages := [⟨40, none, some 30, 1, "hi", 0⟩], notifications := [],
        pushSubscriptions := [], socketEmits := [], nextId := 100, clock := 1 }
      30 1 none (some 999) = .ok msgs := by
  refine ⟨rfl, ?_⟩
  exact (unknown_before_cursor_ignored
    { users := [1, 2], pods := [], podMembers := [], rooms := [], roomMembers := [],
      roomJoinRequests := [], chats := [⟨30⟩],
      chatParticipants := [⟨30, 1⟩, ⟨30, 2⟩],
      messages := [⟨40, none, some 30, 1, "hi", 0⟩], notifications := [],
      pushSubscriptions := [], socketEmits := [], nextId := 100, clock := 1 }
    999 rfl).2.2 30 1 none (by decide)

/-- C7: the message page of a room or chat holds at most `limit`
messages (50 when the parameter is absent), is sorted by ascending
creation time, contains only eligible messages (in the container and
strictly older than the `before` message when that cursor resolves),
and omits an eligible message only in favour of newer-or-equal ones;
both route handlers return exactly this page, and on the concrete
M1-M2-M3 scenario `limit = 2` yields [M2, M3] and `limit = 2` with
`before = M3` yields [M1, M2]. -/
theorem message_pagination (db : DB) (pred : Message → Bool) (limit : Nat)
    (before : Option Nat) :
    ((queryMessages db pred limit before).length ≤ limit
    ∧ (queryMessages db pred limit before).Sorted (fun a b => a.createdAt ≤ b.createdAt)
    ∧ (∀ m ∈ queryMessages db pred limit before, pred m = true ∧
        ∀ bid bm, before = some bid → findMessage db bid = some bm →
          m.createdAt < bm.createdAt)
    ∧ (∀ m ∈ db.messages, pred m = true →
        (∀ bid bm, before = some bid → findMessage db bid = some bm →
          m.createdAt < bm.createdAt) →
        m ∉ queryMessages db pred limit before →
        ∀ m₂ ∈ queryMessages db pred limit before, m.createdAt ≤ m₂.createdAt))
    ∧ ((∀ rid uid lp bef msgs, getRoomMessages db rid uid lp bef = .ok msgs →
        msgs = queryMessages db (fun m => m.roomId == some rid) (lp.getD 50) bef)
    ∧ (∀ cid uid lp bef msgs, getChatMessages db cid uid lp bef = .ok msgs →
        msgs = queryMessages db (fun m => m.chatId == some cid) (lp.getD 50) bef)
    ∧ (∀ rid uid bef, getRoomMessages db rid uid none bef =
        getRoomMessages db rid uid (some 50) bef))
    ∧ (getRoomMessages pagDB3 20 2 (some 2) none = .ok [pagM2, pagM3]
    ∧ getRoomMessages pagDB3 20 2 (some 2) (some pagM3.id) = .ok [pagM1, pagM2]) := by
  have hqdef : queryMessages db pred limit before =
      ((List.insertionSort newerEq
        (cursorFilter db before (db.messages.filter pred))).take limit).reverse := rfl
  have hmemElig : ∀ m, m ∈ queryMessages db pred limit before →
      m ∈ cursorFilter db before (db.messages.filter pred) := by
    intro m hm
    rw [hqdef] at hm
    have h1 := List.mem_reverse.mp hm
    have h2 := List.take_subset _ _ h1
    exact (List.perm_insertionSort newerEq _).mem_iff.mp h2
  have hstep : ∀ (bid : Nat) (l : List Message), cursorFilter db (some bid) l =
      (match findMessage db bid with
       | none => l
       | some bm => l.filter (fun m => decide (m.createdAt < bm.createdAt))) :=
    fun _ _ => rfl
  have heligMem : ∀ m, m ∈ db.messages → pred m = true →
      (∀ bid bm, before = some bid → findMessage db bid = some bm →
        m.createdAt < bm.createdAt) →
      m ∈ cursorFilter db before (db.messages.filter pred) := by
    intro m hm hp hcur
    cases before with
    | none => exact List.mem_filter.mpr ⟨hm, hp⟩
    | some bid =>
      rw [hstep]
      cases hfm : findMessage db bid with
      | none => exact List.mem_filter.mpr ⟨hm, hp⟩
      | some bm =>
        refine List.mem_filter.mpr ⟨List.mem_filter.mpr ⟨hm, hp⟩, ?_⟩
        exact decide_eq_true (hcur bid bm rfl hfm)
  refine ⟨⟨?_, ?_, ?_, ?_⟩, ⟨?_, ?_, ?_⟩, ?_, ?_⟩
  · rw [hqdef, List.length_reverse, List.length_take]
    exact inf_le_left
  · have hs := List.sorted_insertionSort newerEq
      (cursorFilter db before (db.messages.filter pred))
    have ht := List.Pairwise.sublist (List.take_sublist limit _) hs
    rw [hqdef]
    exact List.pairwise_reverse.mpr ht
  · intro m hm
    have he := hmemElig m hm
    cases hb : before with
    | none =>
      rw [hb] at he
      refine ⟨(List.mem_filter.mp he).2, ?_⟩
      intro bid bm hbe
      exact absurd hbe (by simp)
    | some bid =>
      rw [hb, hstep] at he
      cases hfm : findMessage db bid with
      | none =>
        rw [hfm] at he
        refine ⟨(List.mem_filter.mp he).2, ?_⟩
        intro bid' bm hbe hfm'
        have hbb : bid = bid' := by injection hbe
        rw [← hbb, hfm] at hfm'
        exact Option.noConfusion hfm'
      | some bm =>
        rw [hfm] at he
        have h1 := List.mem_filter.mp he
        refine ⟨(List.mem_filter.mp h1.1).2, ?_⟩
        intro bid' bm' hbe hfm'
        have hbb : bid = bid' := by injection hbe
        rw [← hbb, hfm] at hfm'
        have hbm : bm = bm' := by injection hfm'
        rw [← hbm]
        exact of_decide_eq_true h1.2
  · intro m hm hp hcur hnot m₂ hm₂
    have hein := heligMem m hm hp hcur
    have hms : m ∈ List.insertionSort newerEq
        (cursorFilter db before (db.messages.filter pred)) :=
      (List.perm_insertionSort newerEq _).mem_iff.mpr hein
    rw [hqdef] at hnot hm₂
    have hnt : m ∉ (List.insertionSort newerEq
        (cursorFilter db before (db.messages.filter pred))).take limit :=
      fun h => hnot (List.mem_reverse.mpr h)
    have hsad := List.take_append_drop limit (List.insertionSort newerEq
      (cursorFilter db before (db.messages.filter pred)))
    have hmtd : m ∈ (List.insertionSort newerEq
        (cursorFilter db before (db.messages.filter pred))).take limit ++
        (List.insertionSort newerEq
        (cursorFilter db before (db.messages.filter pred))).drop limit := by
      rw [hsad]; exact hms
    have hmd : m ∈ (List.insertionSort newerEq
        (cursorFilter db before (db.messages.filter pred))).drop limit := by
      rcases List.mem_append.mp hmtd with h | h
      · exact absurd h hnt
      · exact h
    have hm₂t := List.mem_reverse.mp hm₂
    have hs := List.sorted_insertionSort newerEq
      (cursorFilter db before (db.messages.filter pred))
    have hpw : List.Pairwise newerEq ((List.insertionSort newerEq
        (cursorFilter db before (db.messages.filter pred))).take limit ++
        (List.insertionSort newerEq
        (cursorFilter db before (db.messages.filter pred))).drop limit) := by
      rw [hsad]; exact hs
    have hsplit := List.pairwise_append.mp hpw
    exact hsplit.2.2 m₂ hm₂t m hmd
  · intro rid uid lp bef msgs h
    unfold getRoomMessages at h
    split at h
    · exact Except.noConfusion h
    · split at h
      · exact Except.noConfusion h
      · split at h
        · exact Except.noConfusion h
        · split at h
          · exact Except.noConfusion h
          · injection h with h
            exact h.symm
  · intro cid uid lp bef msgs h
    unfold getChatMessages at h
    split at h
    · exact Except.noConfusion h
    · injection h with h
      exact h.symm
  · intro rid uid bef
    rfl
  · rfl
  · rfl

/-- Witness for C7: M2 is on the two-element page of room 20 in the
concrete scenario and indeed belongs to that room. -/
theorem message_pagination_witness :
    (pagM2 ∈ queryMessages pagDB3 (fun m => m.roomId == some 20) 2 none) ∧
    ((pagM2.roomId == some 20) = true) := by
  refine ⟨by decide, ?_⟩
  exact ((message_pagination pagDB3 (fun m => m.roomId == some 20) 2 none).1.2.2.1
    pagM2 (by decide)).1

/-! ### Helper lemmas for the chat get-or-create workflow -/

theorem find?_append_of_none {α : Type} {p : α → Bool} {l1 l2 : List α}
    (h : l1.find? p = none) : (l1 ++ l2).find? p = l2.find? p := by
  induction l1 with
  | nil => rfl
  | cons x xs ih =>
    rw [List.find?_eq_none] at h
    have hx : ¬ p x = true := h x (List.mem_cons_self _ _)
    rw [List.cons_append, List.find?_cons_of_neg _ hx]
    exact ih (List.find?_eq_none.mpr fun y hy => h y (List.mem_cons_of_mem _ hy))

theorem pairKey_comm (a b : Nat) : pairKey a b = pairKey b a := by
  unfold pairKey
  rcases Nat.le_total a b with h | h
  · by_cases h2 : b ≤ a
    · have hab : a = b := Nat.le_antisymm h h2
      rw [hab]
    · simp [List.insertionSort, List.orderedInsert, h, h2]
  · by_cases h2 : a ≤ b
    · have hab : a = b := Nat.le_antisymm h2 h
      rw [hab]
    · simp [List.insertionSort, List.orderedInsert, h, h2]

theorem isExactPairChat_comm (db : DB) (a b : Nat) :
    isExactPairChat db a b = isExactPairChat db b a := by
  funext c
  unfold isExactPairChat
  rw [pairKey_comm]

theorem findPairChat_comm (db : DB) (a b : Nat) :
    findPairChat db a b = findPairChat db b a := by
  unfold findPairChat
  rw [isExactPairChat_comm]

theorem filter_chatId_append_ne (ps : List ChatParticipant) (n a b cid : Nat)
    (hne : cid ≠ n) :
    (ps ++ ([⟨n, a⟩, ⟨n, b⟩] : List ChatParticipant)).filter
        (fun p => p.chatId == cid) =
      ps.filter (fun p => p.chatId == cid) := by
  rw [List.filter_append]
  have hbeq : (n == cid) = false := by
    simp
    exact Ne.symm hne
  have hnil : (([⟨n, a⟩, ⟨n, b⟩] : List ChatParticipant)).filter
      (fun p => p.chatId == cid) = [] := by
    simp [List.filter, hbeq]
  rw [hnil, List.append_nil]

theorem createChatDB_chats (db : DB) (a b : Nat) :
    (createChatDB db a b).chats = db.chats ++ [⟨db.nextId⟩] := rfl

theorem createChatDB_chatParticipants (db : DB) (a b : Nat) :
    (createChatDB db a b).chatParticipants =
      db.chatParticipants ++ [⟨db.nextId, a⟩, ⟨db.nextId, b⟩] := rfl

theorem chatParticipantIds_createChatDB (db : DB) (a b : Nat)
    (hdangling : ∀ p ∈ db.chatParticipants, p.chatId ≠ db.nextId) :
    chatParticipantIds (createChatDB db a b) db.nextId = [a, b] := by
  unfold chatParticipantIds
  rw [createChatDB_chatParticipants, List.filter_append]
  rw [List.filter_eq_nil_iff.mpr (fun p hp => by simp [hdangling p hp])]
  simp [List.filter]

theorem isExactPairChat_createChatDB_old (db : DB) (a b : Nat)
    (c : Chat) (hc : c.id ≠ db.nextId) :
    isExactPairChat (createChatDB db a b) a b c = isExactPairChat db a b c := by
  unfold isExactPairChat chatParticipantIds
  rw [createChatDB_chatParticipants, filter_chatId_append_ne _ _ _ _ _ hc]

theorem isExactPairChat_createChatDB_new (db : DB) (a b : Nat)
    (hdangling : ∀ p ∈ db.chatParticipants, p.chatId ≠ db.nextId) :
    isExactPairChat (createChatDB db a b) a b ⟨db.nextId⟩ = true := by
  unfold isExactPairChat
  rw [show (Chat.mk db.nextId).id = db.nextId from rfl,
    chatParticipantIds_createChatDB db a b hdangling]
  simp [pairKey]

/-- C6: get-or-create for direct chats is idempotent and insensitive
to the order of the pair: an existing exact-pair chat is returned with
the store untouched (for both argument orders); with no such chat a
new one is created whose participant set is exactly the pair, and
immediately repeating the call in either order returns that same chat
id without touching the store again. -/
theorem get_or_create_chat_pair (db : DB) (a b : Nat)
    (hab : a ≠ b) (ha : a ∈ db.users) (hb : b ∈ db.users)
    (hfresh : ∀ c ∈ db.chats, c.id ≠ db.nextId)
    (hdangling : ∀ p ∈ db.chatParticipants, p.chatId ≠ db.nextId) :
    (∀ c, findPairChat db a b = some c →
        getOrCreateChat db a b = (.ok c.id, db) ∧
        getOrCreateChat db b a = (.ok c.id, db))
    ∧ (findPairChat db a b = none →
        (getOrCreateChat db a b).1 = .ok db.nextId ∧
        ((getOrCreateChat db a b).2).chats = db.chats ++ [⟨db.nextId⟩] ∧
        chatParticipantIds ((getOrCreateChat db a b).2) db.nextId = [a, b] ∧
        getOrCreateChat ((getOrCreateChat db a b).2) a b =
          (.ok db.nextId, (getOrCreateChat db a b).2) ∧
        getOrCreateChat ((getOrCreateChat db a b).2) b a =
          (.ok db.nextId, (getOrCreateChat db a b).2)) := by
  constructor
  · intro c hc
    constructor
    · unfold getOrCreateChat
      rw [if_neg (fun h => hab h.symm), if_neg (not_not_intro hb), hc]
    · unfold getOrCreateChat
      rw [if_neg hab, if_neg (not_not_intro ha), findPairChat_comm db b a, hc]
  · intro hnone
    have hnone' : db.chats.find? (isExactPairChat db a b) = none := hnone
    have hred1 : getOrCreateChat db a b = (.ok db.nextId, createChatDB db a b) := by
      unfold getOrCreateChat
      rw [if_neg (fun h => hab h.symm), if_neg (not_not_intro hb), hnone]
    have hfind2 : findPairChat (createChatDB db a b) a b = some ⟨db.nextId⟩ := by
      unfold findPairChat
      rw [createChatDB_chats]
      have hold : db.chats.find? (isExactPairChat (createChatDB db a b) a b) = none := by
        refine List.find?_eq_none.mpr fun c hcmem => ?_
        rw [isExactPairChat_createChatDB_old db a b c (hfresh c hcmem)]
        exact List.find?_eq_none.mp hnone' c hcmem
      rw [find?_append_of_none hold]
      exact List.find?_cons_of_pos _
        (isExactPairChat_createChatDB_new db a b hdangling)
    rw [hred1]
    refine ⟨rfl, createChatDB_chats db a b, ?_, ?_, ?_⟩
    · exact chatParticipantIds_createChatDB db a b hdangling
    · unfold getOrCreateChat
      rw [if_neg (fun h => hab h.symm),
        if_neg (not_not_intro (show b ∈ (createChatDB db a b).users from hb)), hfind2]
    · unfold getOrCreateChat
      rw [if_neg hab,
        if_neg (not_not_intro (show a ∈ (createChatDB db a b).users from ha))]
      rw [findPairChat_comm _ b a, hfind2]

/-- Witness for C6: with no chat stored between users 1 and 2, the
first call creates chat 100 and both repeat orders return it with the
store unchanged. -/
theorem get_or_create_chat_pair_witness :
    (findPairChat
      { users := [1, 2], pods := [], podMembers := [], rooms := [], roomMembers := [],
        roomJoinRequests := [], chats := [], chatParticipants := [], messages := [],
        notifications := [], pushSubscriptions := [], socketEmits := [],
        nextId := 100, clock := 0 } 1 2 = none) ∧
    ((getOrCreateChat
      { users := [1, 2], pods := [], podMembers := [], rooms := [], roomMembers := [],
        roomJoinRequests := [], chats := [], chatParticipants := [], messages := [],
        notifications := [], pushSubscriptions := [], socketEmits := [],
        nextId := 100, clock := 0 } 1 2).1 = .ok 100) ∧
    (getOrCreateChat ((getOrCreateChat
      { users := [1, 2], pods := [], podMembers := [], rooms := [], roomMembers := [],
        roomJoinRequests := [], chats := [], chatParticipants := [], messages := [],
        notifications := [], pushSubscriptions := [], socketEmits := [],
        nextId := 100, clock := 0 } 1 2).2) 2 1 =
      (.ok 100, (getOrCreateChat
      { users := [1, 2], pods := [], podMembers := [], rooms := [], roomMembers := [],
        roomJoinRequests := [], chats := [], chatParticipants := [], messages := [],
        notifications := [], pushSubscriptions := [], socketEmits := [],
        nextId := 100, clock := 0 } 1 2).2)) := by
  have h := (get_or_create_chat_pair
      { users := [1, 2], pods := [], podMembers := [], rooms := [], roomMembers := [],
        roomJoinRequests := [], chats := [], chatParticipants := [], messages := [],
        notifications := [], pushSubscriptions := [], socketEmits := [],
        nextId := 100, clock := 0 } 1 2
      (by decide) (by decide) (by decide)
      (fun c hc => absurd hc (List.not_mem_nil c))
      (fun p hp => absurd hp (List.not_mem_nil p))).2 rfl
  exact ⟨rfl, h.1, h.2.2.2.2⟩

end ZubixPod
